import Mathlib

/-!
The ani-mux driver: an analog input multiplexer behind one IIO parent channel.

Shallow embedding of `src/ani-mux.c`.  The driver keeps one `struct ani_mux`
per device, switches a GPIO selector line when a raw read asks for a channel
other than the cached one, sleeps the settle time and then samples the parent
channel.

The kernel services the driver calls (`gpiod_set_value_cansleep`, `fsleep`,
`iio_read_channel_raw`, `iio_read_channel_scale`) are recorded, in program
order, in a trace of events; what they answer is an input (`Env`).  Stores to
`priv->last_channel` are recorded in the same trace so that their position
relative to the calls can be stated.
-/

namespace AniMux

/-- Value of `EINVAL` (errno-base.h). -/
def EINVAL : Int := 22

/-- Value of `ENOMEM` (errno-base.h). -/
def ENOMEM : Int := 12

/-- Value of `IIO_CHAN_INFO_RAW`, first enumerator of `enum iio_chan_info_enum`. -/
def IIO_CHAN_INFO_RAW : Int := 0

/-- Value of `IIO_CHAN_INFO_SCALE`, third enumerator of `enum iio_chan_info_enum`. -/
def IIO_CHAN_INFO_SCALE : Int := 2

/-- Value of `IIO_VOLTAGE`, first enumerator of `enum iio_chan_type`. -/
def IIO_VOLTAGE : Nat := 0

/-- The kernel macro `BIT(n)`. -/
def BIT (n : Nat) : Nat := 1 <<< n

/-- The driver state `struct ani_mux`.  The two pointers are handles. -/
structure ani_mux where
  gpiod : Nat
  parent : Nat
  last_channel : Int
  delay_us : Nat
deriving DecidableEq, Repr

/-- The fields of `struct iio_chan_spec` the driver fills in. -/
structure iio_chan_spec where
  channel : Int
  type : Nat
  info_mask_separate : Nat
  info_mask_shared_by_type : Nat
deriving DecidableEq, Repr

/-- The table `ani_mux_iio_channels`. -/
def ani_mux_iio_channels : List iio_chan_spec :=
  [ { channel := 0,
      type := IIO_VOLTAGE,
      info_mask_separate := BIT IIO_CHAN_INFO_RAW.toNat,
      info_mask_shared_by_type := BIT IIO_CHAN_INFO_SCALE.toNat },
    { channel := 1,
      type := IIO_VOLTAGE,
      info_mask_separate := BIT IIO_CHAN_INFO_RAW.toNat,
      info_mask_shared_by_type := BIT IIO_CHAN_INFO_SCALE.toNat } ]

/-- Observable effects of the read path, in program order. -/
inductive Event where
  | gpiod_set_value_cansleep (desc : Nat) (value : Int)
  | fsleep (usecs : Nat)
  | store_last_channel (value : Int)
  | iio_read_channel_raw (chan : Nat)
  | iio_read_channel_scale (chan : Nat)
deriving DecidableEq, Repr

/-- What the kernel services answer during one call of `iio_read_raw`.
`gpiod_ret` is the status of the selector command, in kernels whose
`gpiod_set_value_cansleep` returns one (the driver discards it);
`raw_ret` and `scale_ret` are the status codes of the parent calls; an output
component is `some v` when the parent stores `v` through the pointer and
`none` when it leaves the pointee alone. -/
structure Env where
  gpiod_ret : Int
  raw_ret : Int
  raw_val : Option Int
  scale_ret : Int
  scale_val : Option Int
  scale_val2 : Option Int
deriving DecidableEq, Repr

/-- Machine state seen by the read path: the object `dev_get_drvdata` returns
for the parent device (`none` is a NULL pointer) and the trace so far. -/
structure World where
  drvdata : Option ani_mux
  trace : List Event
deriving DecidableEq, Repr

/-- Computations of the read path: state passing over `World`; `none` is a
fault (dereference of a NULL `priv`). -/
abbrev K (α : Type) : Type := StateT World Option α

/-- Append one event to the trace. -/
def emit (e : Event) : K Unit :=
  modify fun w => { w with trace := w.trace ++ [e] }

/-- Dereference `priv`: the struct behind the pointer, a fault when NULL. -/
def deref : K ani_mux := do
  let w ← get
  match w.drvdata with
  | some p => pure p
  | none => failure

/-- The assignment `priv->last_channel = value`. -/
def store_last_channel (value : Int) : K Unit := do
  let p ← deref
  modify fun w => { w with drvdata := some { p with last_channel := value } }
  emit (Event.store_last_channel value)

/-- The selector command; its status is an input. -/
def gpiod_set_value_cansleep (env : Env) (desc : Nat) (value : Int) : K Int := do
  emit (Event.gpiod_set_value_cansleep desc value)
  pure env.gpiod_ret

/-- The settle sleep. -/
def fsleep (usecs : Nat) : K Unit :=
  emit (Event.fsleep usecs)

/-- The parent's raw sample: status and the new content of `*val`. -/
def iio_read_channel_raw (env : Env) (chan : Nat) (val : Int) : K (Int × Int) := do
  emit (Event.iio_read_channel_raw chan)
  pure (env.raw_ret, env.raw_val.getD val)

/-- The parent's scale query: status and the new contents of `*val`, `*val2`. -/
def iio_read_channel_scale (env : Env) (chan : Nat) (val val2 : Int) :
    K (Int × Int × Int) := do
  emit (Event.iio_read_channel_scale chan)
  pure (env.scale_ret, env.scale_val.getD val, env.scale_val2.getD val2)

/-- The driver's `read_raw` callback, `iio_read_raw`.  `val` and `val2` are the
contents of the two output cells at entry; the result is the return value and
their contents at exit. -/
def iio_read_raw (env : Env) (chan : iio_chan_spec) (val val2 : Int) (info : Int) :
    K (Int × Int × Int) := do
  if info = IIO_CHAN_INFO_RAW then
    if (← deref).last_channel ≠ chan.channel then
      let _ ← gpiod_set_value_cansleep env (← deref).gpiod chan.channel
      fsleep (← deref).delay_us
      store_last_channel chan.channel
    let (r, v) ← iio_read_channel_raw env (← deref).parent val
    return (r, v, val2)
  else if info = IIO_CHAN_INFO_SCALE then
    iio_read_channel_scale env (← deref).parent val val2
  else
    return (-EINVAL, val, val2)

/-- One read request as the IIO core hands it to the callback. -/
structure Read where
  chan : iio_chan_spec
  info : Int
  val : Int
  val2 : Int
  env : Env
deriving DecidableEq, Repr

/-- Run one request and keep the state. -/
def exec (r : Read) (w : World) : Option World :=
  ((iio_read_raw r.env r.chan r.val r.val2 r.info).run w).map Prod.snd

/-- Run requests one after another. -/
def run_reads : List Read → World → Option World
  | [], w => some w
  | r :: rs, w => (exec r w).bind (run_reads rs)

/-- Number of selector commands in a trace. -/
def count_sel : List Event → Nat
  | [] => 0
  | Event.gpiod_set_value_cansleep _ _ :: es => count_sel es + 1
  | _ :: es => count_sel es

/-- Number of settle sleeps in a trace. -/
def count_sleep : List Event → Nat
  | [] => 0
  | Event.fsleep _ :: es => count_sleep es + 1
  | _ :: es => count_sleep es

/-- Number of raw sample requests in a trace. -/
def count_raw : List Event → Nat
  | [] => 0
  | Event.iio_read_channel_raw _ :: es => count_raw es + 1
  | _ :: es => count_raw es

/-- Number of scale queries in a trace. -/
def count_scale : List Event → Nat
  | [] => 0
  | Event.iio_read_channel_scale _ :: es => count_scale es + 1
  | _ :: es => count_scale es

/-- Events of a raw read of `chan` entered with state `p`. -/
def raw_events (p : ani_mux) (chan : iio_chan_spec) : List Event :=
  (if p.last_channel ≠ chan.channel then
    [Event.gpiod_set_value_cansleep p.gpiod chan.channel,
     Event.fsleep p.delay_us,
     Event.store_last_channel chan.channel]
   else []) ++ [Event.iio_read_channel_raw p.parent]

/-- Events of a scale read entered with state `p`. -/
def scale_events (p : ani_mux) : List Event :=
  [Event.iio_read_channel_scale p.parent]

/-- The most recent selector command of a trace: its value and the events
that follow it; `none` when the trace holds no selector command. -/
def last_sel : List Event → Option (Int × List Event)
  | [] => none
  | e :: es =>
    match last_sel es with
    | some r => some r
    | none =>
      match e with
      | Event.gpiod_set_value_cansleep _ v => some (v, es)
      | _ => none

/-- Value the selector line was last driven to: the most recent command, or
the level `init` it had at the start of the trace. -/
def last_cmd (init : Int) (tr : List Event) : Int :=
  match last_sel tr with
  | some (v, _) => v
  | none => init

/-- The events `before` a sample of channel `c` show a settled route: the most
recent selector command has value `c` and the very next event is a sleep of
`d`; or there is no selector command and `c` is the initial level `init`. -/
def settled (init : Int) (c : Int) (d : Nat) (before : List Event) : Prop :=
  match last_sel before with
  | some (v, rest) => v = c ∧ rest.head? = some (Event.fsleep d)
  | none => c = init

instance (init : Int) (c : Int) (d : Nat) (before : List Event) :
    Decidable (settled init c d before) := by
  unfold settled
  cases last_sel before with
  | none => exact inferInstance
  | some r => exact inferInstance

/-- The flag values of `enum gpiod_flags` that request an output. -/
inductive gpiod_flags where
  | GPIOD_OUT_LOW
  | GPIOD_OUT_HIGH
deriving DecidableEq, Repr

/-- Logical level `devm_gpiod_get` drives the line to for an output flag. -/
def gpiod_flags.level : gpiod_flags → Int
  | gpiod_flags.GPIOD_OUT_LOW => 0
  | gpiod_flags.GPIOD_OUT_HIGH => 1

/-- What the kernel services answer during `ani_mux_probe`: whether the two
allocations succeed, the descriptor and the parent channel handle or the
error held in the returned pointer, the value of property `settle-time-us`
when `device_property_read_u32` can read it, and the status of the
registration. -/
structure ProbeEnv where
  devm_kzalloc : Bool
  devm_gpiod_get : Except Int Nat
  devm_iio_channel_get : Except Int Nat
  settle_time_us : Option Nat
  devm_iio_device_alloc : Bool
  devm_iio_device_register : Int

/-- The part of `struct device` the driver touches: the driver data pointer
(`none` is NULL). -/
structure device where
  driver_data : Option ani_mux
deriving DecidableEq, Repr

/-- The kernel's `dev_get_drvdata`. -/
def dev_get_drvdata (dev : device) : Option ani_mux :=
  dev.driver_data

/-- What a successful `ani_mux_probe` leaves: the platform device, the
initialised `struct ani_mux` in device-managed memory and the level the
selector line was requested with. -/
structure Instance where
  dev : device
  priv : ani_mux
  line : Int
deriving DecidableEq, Repr

/-- The driver's `ani_mux_probe` on the platform device `dev`: `Except.error r`
is a return of the non-zero status `r`, `Except.ok` a return of 0.
`devm_kzalloc` hands out zeroed memory.  The function body holds no
`dev_set_drvdata` or `platform_set_drvdata` call, so `dev` is handed back as it
came in. -/
def ani_mux_probe (penv : ProbeEnv) (dev : device) : Except Int Instance :=
  if !penv.devm_kzalloc then
    Except.error (-ENOMEM)
  else
    let priv : ani_mux := { gpiod := 0, parent := 0, last_channel := 0, delay_us := 0 }
    match penv.devm_gpiod_get with
    | Except.error e => Except.error e
    | Except.ok g =>
      let priv := { priv with gpiod := g }
      match penv.devm_iio_channel_get with
      | Except.error e => Except.error e
      | Except.ok c =>
        let priv := { priv with parent := c }
        let priv :=
          match penv.settle_time_us with
          | some d => { priv with delay_us := d % 2 ^ 32 }
          | none => priv
        if !penv.devm_iio_device_alloc then
          Except.error (-ENOMEM)
        else
          let r := penv.devm_iio_device_register
          if r ≠ 0 then
            Except.error r
          else
            Except.ok { dev := dev, priv := priv, line := gpiod_flags.GPIOD_OUT_LOW.level }

/-- The world in which `iio_read_raw` runs on a probed instance: line 40 takes
`priv` from `dev_get_drvdata` of the platform device; the trace starts empty. -/
def probe_world (inst : Instance) : World :=
  { drvdata := dev_get_drvdata inst.dev, trace := [] }

/-- Value of `last_channel` after the events of a trace, `init` being its value
at the start: the value of the most recent store. -/
def cached (init : Int) : List Event → Int
  | [] => init
  | Event.store_last_channel v :: es => cached v es
  | _ :: es => cached init es

/-- At the instant after the events `pre`, the cache agrees with the selector
line, or a switch is under way: without any selector command `last_channel`
still has its initial value `init`; otherwise it equals the value of the most
recent selector command, unless that command is the last event or is followed
by the settle sleep only (the store of line 48 has not run yet). -/
def coherent (init : Int) (d : Nat) (pre : List Event) : Prop :=
  match last_sel pre with
  | none => cached init pre = init
  | some (v, rest) => cached init pre = v ∨ rest = [] ∨ rest = [Event.fsleep d]

instance (init : Int) (d : Nat) (pre : List Event) : Decidable (coherent init d pre) := by
  unfold coherent
  cases last_sel pre with
  | none => exact inferInstance
  | some r => exact inferInstance

/-- State after the request `r` entered with state `p`. -/
def read_state (p : ani_mux) (r : Read) : ani_mux :=
  if r.info = IIO_CHAN_INFO_RAW then { p with last_channel := r.chan.channel } else p

/-- Events of the request `r` entered with state `p`. -/
def read_events (p : ani_mux) (r : Read) : List Event :=
  if r.info = IIO_CHAN_INFO_RAW then raw_events p r.chan
  else if r.info = IIO_CHAN_INFO_SCALE then scale_events p
  else []

/-- Relation kept between the driver state and the trace, for an instance
built with state `p0` and line level `line`: the state differs from `p0` at
most in `last_channel`, which is the value of the most recent selector command
(`line` when there is none), and the most recent selector command is directly
followed by a sleep of the settle time. -/
def mux_inv (p0 : ani_mux) (line : Int) (w : World) : Prop :=
  w.drvdata = some { p0 with last_channel := last_cmd line w.trace }
  ∧ ∀ v rest, last_sel w.trace = some (v, rest) → rest.head? = some (Event.fsleep p0.delay_us)

/-- A concrete state: channel 0 cached, settle time 50 us. -/
def priv0 : ani_mux := { gpiod := 3, parent := 4, last_channel := 0, delay_us := 50 }

/-- Channel descriptor 0 of the table. -/
def chan0 : iio_chan_spec :=
  { channel := 0, type := IIO_VOLTAGE, info_mask_separate := 1, info_mask_shared_by_type := 4 }

/-- Channel descriptor 1 of the table. -/
def chan1 : iio_chan_spec :=
  { channel := 1, type := IIO_VOLTAGE, info_mask_separate := 1, info_mask_shared_by_type := 4 }

/-- A descriptor with index 2, outside the table. -/
def chan2 : iio_chan_spec :=
  { channel := 2, type := IIO_VOLTAGE, info_mask_separate := 1, info_mask_shared_by_type := 4 }

/-- Every service succeeds; the parent answers `IIO_VAL_INT` (1) with sample 7. -/
def env_ok : Env :=
  { gpiod_ret := 0, raw_ret := 1, raw_val := some 7,
    scale_ret := 2, scale_val := some 3300, scale_val2 := some 12 }

/-- The parent fails with `-ETIMEDOUT` and writes nothing. -/
def env_parent_fails : Env :=
  { gpiod_ret := 0, raw_ret := -110, raw_val := none,
    scale_ret := -110, scale_val := none, scale_val2 := none }

/-- The selector command fails with `-EIO`; the parent succeeds. -/
def env_selector_fails : Env :=
  { gpiod_ret := -5, raw_ret := 1, raw_val := some 7,
    scale_ret := 2, scale_val := some 3300, scale_val2 := some 12 }

/-- A probe in which every service succeeds and `settle-time-us` is 50. -/
def probe_env_50 : ProbeEnv :=
  { devm_kzalloc := true, devm_gpiod_get := Except.ok 3, devm_iio_channel_get := Except.ok 4,
    settle_time_us := some 50, devm_iio_device_alloc := true, devm_iio_device_register := 0 }

/-- A platform device before its driver is bound: no driver data. -/
def fresh_device : device := { driver_data := none }

/-- The instance `probe_env_50` yields on `fresh_device`. -/
def inst_50 : Instance := { dev := fresh_device, priv := priv0, line := 0 }

/-! ## The read path, statement by statement -/

theorem iio_read_raw_RAW (env : Env) (p : ani_mux) (tr : List Event) (chan : iio_chan_spec)
    (val val2 : Int) :
    (iio_read_raw env chan val val2 IIO_CHAN_INFO_RAW).run ⟨some p, tr⟩
      = some ((env.raw_ret, env.raw_val.getD val, val2),
          ⟨some { p with last_channel := chan.channel }, tr ++ raw_events p chan⟩) := by
  by_cases h : p.last_channel = chan.channel
  · simp [iio_read_raw, raw_events, h, deref, iio_read_channel_raw, emit, StateT.run, bind,
      StateT.bind, get, getThe, MonadStateOf.get, StateT.get, pure, StateT.pure, modify,
      modifyGet, MonadStateOf.modifyGet, StateT.modifyGet, MonadState.get]
    rw [← h]
  · simp [iio_read_raw, raw_events, h, deref, iio_read_channel_raw, emit, StateT.run, bind,
      StateT.bind, get, getThe, MonadStateOf.get, StateT.get, pure, StateT.pure, modify,
      modifyGet, MonadStateOf.modifyGet, StateT.modifyGet, MonadState.get, store_last_channel,
      fsleep, gpiod_set_value_cansleep]

theorem iio_read_raw_SCALE (env : Env) (p : ani_mux) (tr : List Event) (chan : iio_chan_spec)
    (val val2 : Int) :
    (iio_read_raw env chan val val2 IIO_CHAN_INFO_SCALE).run ⟨some p, tr⟩
      = some ((env.scale_ret, env.scale_val.getD val, env.scale_val2.getD val2),
          ⟨some p, tr ++ scale_events p⟩) := by
  simp [iio_read_raw, scale_events, deref, iio_read_channel_scale, emit, StateT.run, bind,
    StateT.bind, get, getThe, MonadStateOf.get, StateT.get, pure, StateT.pure, modify,
    modifyGet, MonadStateOf.modifyGet, StateT.modifyGet, MonadState.get, IIO_CHAN_INFO_SCALE,
    IIO_CHAN_INFO_RAW]

theorem iio_read_raw_other (env : Env) (w : World) (chan : iio_chan_spec) (val val2 : Int)
    (info : Int) (h1 : info ≠ IIO_CHAN_INFO_RAW) (h2 : info ≠ IIO_CHAN_INFO_SCALE) :
    (iio_read_raw env chan val val2 info).run w = some ((-EINVAL, val, val2), w) := by
  simp [iio_read_raw, h1, h2, StateT.run, pure, StateT.pure]

/-- With a NULL `priv` a raw or a scale read faults at the first dereference. -/
theorem iio_read_raw_NULL (env : Env) (tr : List Event) (chan : iio_chan_spec)
    (val val2 : Int) :
    (iio_read_raw env chan val val2 IIO_CHAN_INFO_RAW).run ⟨none, tr⟩ = none
    ∧ (iio_read_raw env chan val val2 IIO_CHAN_INFO_SCALE).run ⟨none, tr⟩ = none := by
  constructor <;>
    simp [iio_read_raw, deref, StateT.run, bind, StateT.bind, get, getThe, MonadStateOf.get,
      StateT.get, pure, StateT.pure, MonadState.get, failure, Alternative.failure,
      StateT.failure, IIO_CHAN_INFO_SCALE, IIO_CHAN_INFO_RAW]

theorem exec_RAW (r : Read) (p : ani_mux) (tr : List Event) (h : r.info = IIO_CHAN_INFO_RAW) :
    exec r ⟨some p, tr⟩
      = some ⟨some { p with last_channel := r.chan.channel }, tr ++ raw_events p r.chan⟩ := by
  simp [exec, h, iio_read_raw_RAW]

theorem exec_SCALE (r : Read) (p : ani_mux) (tr : List Event)
    (h : r.info = IIO_CHAN_INFO_SCALE) :
    exec r ⟨some p, tr⟩ = some ⟨some p, tr ++ scale_events p⟩ := by
  simp [exec, h, iio_read_raw_SCALE]

theorem count_sel_append (a b : List Event) : count_sel (a ++ b) = count_sel a + count_sel b := by
  induction a with
  | nil => simp [count_sel]
  | cons e es ih => cases e <;> simp [count_sel, ih]; omega

theorem count_sel_raw_events (p : ani_mux) (chan : iio_chan_spec) :
    count_sel (raw_events p chan) = if p.last_channel ≠ chan.channel then 1 else 0 := by
  by_cases h : p.last_channel = chan.channel <;> simp [raw_events, h, count_sel]

/-- A successful probe: both handles were obtained, the cached channel in the
allocated struct is 0, its settle time is the property value (0 without one),
the line is low, and the device is as it was handed in. -/
theorem ani_mux_probe_ok (penv : ProbeEnv) (dev : device) (inst : Instance)
    (hp : ani_mux_probe penv dev = Except.ok inst) :
    ∃ g c, penv.devm_gpiod_get = Except.ok g ∧ penv.devm_iio_channel_get = Except.ok c
      ∧ inst = { dev := dev,
                 priv := { gpiod := g, parent := c, last_channel := 0,
                           delay_us := (penv.settle_time_us.map (fun d => d % 2 ^ 32)).getD 0 },
                 line := 0 } := by
  obtain ⟨kz, gg, cc, st, al, rg⟩ := penv
  cases kz <;> cases gg <;> cases cc <;> cases st <;> cases al <;>
    by_cases hr : rg = 0 <;>
    simp [ani_mux_probe, hr, gpiod_flags.level] at hp ⊢ <;>
    exact hp.symm

/-- After a successful probe the platform device has the driver data it had
before; on a device that had none, `dev_get_drvdata` yields NULL and every raw
or scale read faults. -/
theorem ani_mux_probe_leaves_driver_data (penv : ProbeEnv) (dev : device) (inst : Instance)
    (hp : ani_mux_probe penv dev = Except.ok inst) (hd : dev.driver_data = none)
    (env : Env) (chan : iio_chan_spec) (val val2 : Int) :
    inst.dev = dev
    ∧ probe_world inst = ⟨none, []⟩
    ∧ (iio_read_raw env chan val val2 IIO_CHAN_INFO_RAW).run (probe_world inst) = none
    ∧ (iio_read_raw env chan val val2 IIO_CHAN_INFO_SCALE).run (probe_world inst) = none := by
  obtain ⟨g, c, _, _, hi⟩ := ani_mux_probe_ok penv dev inst hp
  have hw : probe_world inst = ⟨none, []⟩ := by
    rw [hi]
    simp [probe_world, dev_get_drvdata, hd]
  refine ⟨by rw [hi], hw, ?_, ?_⟩
  · rw [hw]
    exact (iio_read_raw_NULL env [] chan val val2).1
  · rw [hw]
    exact (iio_read_raw_NULL env [] chan val val2).2

theorem run_reads_scale (ss : List Read) (hs : ∀ s ∈ ss, s.info = IIO_CHAN_INFO_SCALE)
    (p : ani_mux) (tr : List Event) :
    run_reads ss ⟨some p, tr⟩
      = some ⟨some p, tr ++ List.replicate ss.length (Event.iio_read_channel_scale p.parent)⟩ := by
  induction ss generalizing tr with
  | nil => simp [run_reads]
  | cons r rs ih =>
    have hr : r.info = IIO_CHAN_INFO_SCALE := hs r (List.mem_cons_self r rs)
    have hrs : ∀ s ∈ rs, s.info = IIO_CHAN_INFO_SCALE :=
      fun s h => hs s (List.mem_cons_of_mem r h)
    simp [run_reads, exec_SCALE r p tr hr, ih hrs, scale_events, List.replicate_succ]

theorem count_replicate_scale (n : Nat) (k : Nat) :
    count_sel (List.replicate k (Event.iio_read_channel_scale n)) = 0
    ∧ count_sleep (List.replicate k (Event.iio_read_channel_scale n)) = 0
    ∧ count_raw (List.replicate k (Event.iio_read_channel_scale n)) = 0
    ∧ count_scale (List.replicate k (Event.iio_read_channel_scale n)) = k := by
  induction k with
  | zero => simp [count_sel, count_sleep, count_raw, count_scale]
  | succ k ih => simp [List.replicate_succ, count_sel, count_sleep, count_raw, count_scale, ih]

theorem run_reads_same_raw (c : Int) (rs : List Read)
    (h : ∀ x ∈ rs, x.chan.channel = c ∧ x.info = IIO_CHAN_INFO_RAW)
    (p : ani_mux) (hp : p.last_channel = c) (tr : List Event) :
    run_reads rs ⟨some p, tr⟩
      = some ⟨some p, tr ++ List.replicate rs.length (Event.iio_read_channel_raw p.parent)⟩ := by
  induction rs generalizing tr with
  | nil => simp [run_reads]
  | cons r rs ih =>
    have hr := h r (List.mem_cons_self r rs)
    have hrs : ∀ x ∈ rs, x.chan.channel = c ∧ x.info = IIO_CHAN_INFO_RAW :=
      fun x hx => h x (List.mem_cons_of_mem r hx)
    have hpc : ({ p with last_channel := r.chan.channel } : ani_mux) = p := by
      rw [hr.1, ← hp]
    rw [run_reads, exec_RAW r p tr hr.2, hpc]
    simp [ih hrs, raw_events, hr.1, hp, List.replicate_succ]

theorem count_sel_replicate_raw (n : Nat) (k : Nat) :
    count_sel (List.replicate k (Event.iio_read_channel_raw n)) = 0 := by
  induction k with
  | zero => simp [count_sel]
  | succ k ih => simp [List.replicate_succ, count_sel, ih]

theorem exec_some (r : Read) (p : ani_mux) (tr : List Event) :
    exec r ⟨some p, tr⟩ = some ⟨some (read_state p r), tr ++ read_events p r⟩ := by
  by_cases h1 : r.info = IIO_CHAN_INFO_RAW
  · simp [exec_RAW r p tr h1, read_state, read_events, h1]
  · by_cases h2 : r.info = IIO_CHAN_INFO_SCALE
    · have hne : IIO_CHAN_INFO_SCALE ≠ IIO_CHAN_INFO_RAW := by decide
      simp [exec_SCALE r p tr h2, read_state, read_events, h2, hne]
    · simp [exec, iio_read_raw_other r.env _ r.chan r.val r.val2 r.info h1 h2, read_state,
        read_events, h1, h2]

theorem last_sel_append (a b : List Event) :
    last_sel (a ++ b)
      = match last_sel b with
        | some r => some r
        | none => (last_sel a).map (fun r => (r.1, r.2 ++ b)) := by
  induction a with
  | nil => cases hb : last_sel b <;> simp [last_sel, hb]
  | cons e es ih =>
    cases hb : last_sel b with
    | some r =>
      rw [hb] at ih
      simp [last_sel, ih]
    | none =>
      rw [hb] at ih
      cases hes : last_sel es with
      | some r =>
        rw [hes] at ih
        simp [last_sel, ih, hes]
      | none =>
        rw [hes] at ih
        cases e <;> simp [last_sel, ih, hes]

theorem last_cmd_of_last_sel (line : Int) (tr : List Event) (v : Int) (rest : List Event)
    (h : last_sel tr = some (v, rest)) : last_cmd line tr = v := by
  unfold last_cmd
  rw [h]

theorem last_cmd_of_no_sel (line : Int) (tr : List Event) (h : last_sel tr = none) :
    last_cmd line tr = line := by
  unfold last_cmd
  rw [h]

theorem last_sel_append_quiet (a b : List Event) (hb : last_sel b = none) :
    last_sel (a ++ b) = (last_sel a).map (fun r => (r.1, r.2 ++ b)) := by
  rw [last_sel_append, hb]

theorem last_sel_append_some (a b : List Event) (r : Int × List Event)
    (hb : last_sel b = some r) : last_sel (a ++ b) = some r := by
  rw [last_sel_append, hb]

theorem mux_inv_append_quiet (p0 : ani_mux) (line : Int) (tr ev : List Event)
    (hq : last_sel ev = none)
    (h : mux_inv p0 line ⟨some { p0 with last_channel := last_cmd line tr }, tr⟩) :
    mux_inv p0 line ⟨some { p0 with last_channel := last_cmd line tr }, tr ++ ev⟩ := by
  obtain ⟨_, h2⟩ := h
  have hl : last_sel (tr ++ ev) = (last_sel tr).map (fun r => (r.1, r.2 ++ ev)) :=
    last_sel_append_quiet tr ev hq
  constructor
  · show some _ = some _
    simp only [last_cmd, hl]
    cases last_sel tr <;> rfl
  · intro v rest hv
    simp only [hl] at hv
    cases hs : last_sel tr with
    | none => simp [hs] at hv
    | some r =>
      obtain ⟨v0, rest0⟩ := r
      simp [hs] at hv
      have h0 := h2 v0 rest0 hs
      rw [← hv.2]
      cases rest0 with
      | nil => simp at h0
      | cons x xs => simpa using h0

theorem mux_inv_exec (p0 : ani_mux) (line : Int) (w : World) (r : Read)
    (h : mux_inv p0 line w) :
    ∃ w1, exec r w = some w1 ∧ mux_inv p0 line w1
      ∧ w1.trace = w.trace ++ read_events { p0 with last_channel := last_cmd line w.trace } r := by
  obtain ⟨d, tr⟩ := w
  have hd : d = some { p0 with last_channel := last_cmd line tr } := h.1
  subst hd
  refine ⟨_, exec_some r _ tr, ?_, rfl⟩
  by_cases h1 : r.info = IIO_CHAN_INFO_RAW
  · by_cases hc : last_cmd line tr = r.chan.channel
    · have hst : read_state { p0 with last_channel := last_cmd line tr } r
          = { p0 with last_channel := last_cmd line tr } := by
        simp [read_state, h1, hc]
      rw [hst]
      exact mux_inv_append_quiet p0 line tr _ (by simp [read_events, h1, raw_events, hc, last_sel]) h
    · have hl : last_sel (tr ++ read_events { p0 with last_channel := last_cmd line tr } r)
          = some (r.chan.channel,
              [Event.fsleep p0.delay_us, Event.store_last_channel r.chan.channel,
               Event.iio_read_channel_raw p0.parent]) := by
        apply last_sel_append_some
        simp [read_events, h1, raw_events, hc, last_sel]
      constructor
      · show some _ = some _
        rw [last_cmd_of_last_sel line _ _ _ hl]
        simp [read_state, h1]
      · intro v rest hv
        simp only [hl] at hv
        simp at hv
        rw [← hv.2]
        rfl
  · have hst : read_state { p0 with last_channel := last_cmd line tr } r
        = { p0 with last_channel := last_cmd line tr } := by
      simp [read_state, h1]
    rw [hst]
    refine mux_inv_append_quiet p0 line tr _ ?_ h
    by_cases h2 : r.info = IIO_CHAN_INFO_SCALE <;>
      simp [read_events, h1, h2, scale_events, last_sel]

theorem mux_inv_run (p0 : ani_mux) (line : Int) (rs : List Read) (w : World)
    (h : mux_inv p0 line w) :
    ∃ w1, run_reads rs w = some w1 ∧ mux_inv p0 line w1 := by
  induction rs generalizing w with
  | nil => exact ⟨w, rfl, h⟩
  | cons r rs ih =>
    obtain ⟨w1, he, hi, _⟩ := mux_inv_exec p0 line w r h
    obtain ⟨w2, hr, hi2⟩ := ih w1 hi
    exact ⟨w2, by simp [run_reads, he, hr], hi2⟩

theorem mux_inv_init (p0 : ani_mux) (line : Int) (h : p0.last_channel = line) :
    mux_inv p0 line ⟨some p0, []⟩ := by
  constructor
  · show some p0 = some _
    simp [last_cmd, last_sel, ← h]
  · intro v rest hv
    simp [last_sel] at hv

theorem mux_inv_run_01 (p0 : ani_mux) (line : Int) (rs : List Read)
    (hrs : ∀ r ∈ rs, r.chan.channel = 0 ∨ r.chan.channel = 1) (w : World)
    (h : mux_inv p0 line w) (h01 : last_cmd line w.trace = 0 ∨ last_cmd line w.trace = 1) :
    ∃ w1, run_reads rs w = some w1 ∧ mux_inv p0 line w1
      ∧ (last_cmd line w1.trace = 0 ∨ last_cmd line w1.trace = 1) := by
  induction rs generalizing w with
  | nil => exact ⟨w, rfl, h, h01⟩
  | cons r rs ih =>
    have hr := hrs r (List.mem_cons_self r rs)
    have hrs1 : ∀ x ∈ rs, x.chan.channel = 0 ∨ x.chan.channel = 1 :=
      fun x hx => hrs x (List.mem_cons_of_mem r hx)
    obtain ⟨w1, he, hi, _⟩ := mux_inv_exec p0 line w r h
    have h01n : last_cmd line w1.trace = 0 ∨ last_cmd line w1.trace = 1 := by
      obtain ⟨d, tr⟩ := w
      have hd : d = some { p0 with last_channel := last_cmd line tr } := h.1
      subst hd
      rw [exec_some] at he
      have hw : w1 = ⟨some (read_state { p0 with last_channel := last_cmd line tr } r),
          tr ++ read_events { p0 with last_channel := last_cmd line tr } r⟩ :=
        (Option.some.inj he).symm
      have hi1 := hi.1
      rw [hw] at hi1 ⊢
      have hlc := congrArg ani_mux.last_channel (Option.some.inj hi1)
      simp only at hlc
      rw [← hlc]
      by_cases h1 : r.info = IIO_CHAN_INFO_RAW
      · simpa [read_state, h1] using hr
      · simpa [read_state, h1] using h01
    obtain ⟨w2, hr2, hi2, h2⟩ := ih hrs1 w1 hi h01n
    exact ⟨w2, by simp [run_reads, he, hr2], hi2, h2⟩

/-- The design on the struct probe initialises, were it the driver data of the
read path: the first raw read of channel 0 only samples, the first raw read of
any other channel switches and sleeps the configured settle time first. -/
theorem raw_read_on_probed_struct (penv : ProbeEnv) (dev : device) (inst : Instance)
    (hp : ani_mux_probe penv dev = Except.ok inst) (env : Env) (chan : iio_chan_spec)
    (val val2 : Int) :
    inst.priv.last_channel = 0
    ∧ inst.line = 0
    ∧ inst.priv.delay_us = ((penv.settle_time_us.map (fun d => d % 2 ^ 32)).getD 0)
    ∧ (iio_read_raw env chan val val2 IIO_CHAN_INFO_RAW).run ⟨some inst.priv, []⟩
        = some ((env.raw_ret, env.raw_val.getD val, val2),
            ⟨some { inst.priv with last_channel := chan.channel },
             if chan.channel ≠ 0 then
               [Event.gpiod_set_value_cansleep inst.priv.gpiod chan.channel,
                Event.fsleep ((penv.settle_time_us.map (fun d => d % 2 ^ 32)).getD 0),
                Event.store_last_channel chan.channel,
                Event.iio_read_channel_raw inst.priv.parent]
             else [Event.iio_read_channel_raw inst.priv.parent]⟩) := by
  obtain ⟨g, c, _, _, hi⟩ := ani_mux_probe_ok penv dev inst hp
  have key : inst.priv.last_channel = 0 ∧ inst.line = 0
      ∧ inst.priv.delay_us = ((penv.settle_time_us.map (fun d => d % 2 ^ 32)).getD 0) := by
    subst hi
    exact ⟨rfl, rfl, rfl⟩
  obtain ⟨h1, h2, h3⟩ := key
  refine ⟨h1, h2, h3, ?_⟩
  rw [iio_read_raw_RAW]
  by_cases h : chan.channel = 0
  · simp [raw_events, h, h1]
  · have h' : ¬ (0 : Int) = chan.channel := fun e => h e.symm
    simp [raw_events, h, h', h1, h3]

theorem cached_append (init : Int) (a b : List Event) :
    cached init (a ++ b) = cached (cached init a) b := by
  induction a generalizing init with
  | nil => rfl
  | cons e es ih => cases e <;> simp [cached, ih]

theorem coherent_append_quiet (init : Int) (d : Nat) (tr ev : List Event)
    (hq : last_sel ev = none) (hs : ∀ x, cached x ev = x)
    (hc : cached init tr = last_cmd init tr) : coherent init d (tr ++ ev) := by
  unfold coherent
  rw [last_sel_append_quiet tr ev hq, cached_append, hs, hc]
  cases hl : last_sel tr with
  | none =>
    show last_cmd init tr = init
    exact last_cmd_of_no_sel init tr hl
  | some x =>
    obtain ⟨v, rest⟩ := x
    show last_cmd init tr = v ∨ _
    exact Or.inl (last_cmd_of_last_sel init tr v rest hl)

theorem coherent_append_switch (init : Int) (d : Nat) (tr : List Event) (g : Nat) (c : Int)
    (par : Nat) (a post : List Event)
    (h : [Event.gpiod_set_value_cansleep g c, Event.fsleep d, Event.store_last_channel c,
          Event.iio_read_channel_raw par] = a ++ post)
    (ha : a ≠ []) : coherent init d (tr ++ a) := by
  unfold coherent
  rcases a with _ | ⟨x1, _ | ⟨x2, _ | ⟨x3, _ | ⟨x4, _ | ⟨x5, t⟩⟩⟩⟩⟩
  · exact absurd rfl ha
  · simp at h
    obtain ⟨h1, _⟩ := h
    subst h1
    rw [last_sel_append_some tr _ (c, []) (by simp [last_sel])]
    exact Or.inr (Or.inl rfl)
  · simp at h
    obtain ⟨h1, h2, _⟩ := h
    subst h1 h2
    rw [last_sel_append_some tr _ (c, [Event.fsleep d]) (by simp [last_sel])]
    exact Or.inr (Or.inr rfl)
  · simp at h
    obtain ⟨h1, h2, h3, _⟩ := h
    subst h1 h2 h3
    rw [last_sel_append_some tr _ (c, [Event.fsleep d, Event.store_last_channel c])
      (by simp [last_sel])]
    exact Or.inl (by simp [cached_append, cached])
  · simp at h
    obtain ⟨h1, h2, h3, h4, _⟩ := h
    subst h1 h2 h3 h4
    rw [last_sel_append_some tr _
      (c, [Event.fsleep d, Event.store_last_channel c, Event.iio_read_channel_raw par])
      (by simp [last_sel])]
    exact Or.inl (by simp [cached_append, cached])
  · simp at h

theorem coherent_split_quiet (init : Int) (d : Nat) (tr ev : List Event)
    (hev : ev = [] ∨ ∃ e, ev = [e])
    (hq : last_sel ev = none) (hs : ∀ x, cached x ev = x)
    (hc : cached init tr = last_cmd init tr)
    (hall : ∀ a b, tr = a ++ b → coherent init d a)
    (a b : List Event) (h : tr ++ ev = a ++ b) : coherent init d a := by
  rcases List.append_eq_append_iff.mp h with ⟨a1, ha, hb⟩ | ⟨c1, hc1, _⟩
  · rcases hev with he | ⟨e, he⟩
    · subst he
      have : a1 = [] := by
        cases a1 with
        | nil => rfl
        | cons x xs => simp at hb
      subst this
      rw [ha]
      exact hall (tr ++ []) [] (by simp)
    · subst he
      cases a1 with
      | nil =>
        rw [ha]
        exact hall (tr ++ []) [] (by simp)
      | cons x xs =>
        have hx : x :: xs = [e] := by
          cases xs with
          | nil => simp at hb; rw [hb.1]
          | cons y ys => simp at hb
        rw [ha, hx]
        exact coherent_append_quiet init d tr [e] hq hs hc
  · exact hall a c1 hc1

theorem last_cmd_append_quiet (init : Int) (tr ev : List Event) (hq : last_sel ev = none) :
    last_cmd init (tr ++ ev) = last_cmd init tr := by
  unfold last_cmd
  rw [last_sel_append_quiet tr ev hq]
  cases last_sel tr <;> rfl

theorem coherent_exec (p0 : ani_mux) (line : Int) (w : World) (r : Read)
    (hinv : mux_inv p0 line w)
    (hc : cached line w.trace = last_cmd line w.trace)
    (hall : ∀ a b, w.trace = a ++ b → coherent line p0.delay_us a) :
    ∃ w1, exec r w = some w1 ∧ mux_inv p0 line w1
      ∧ cached line w1.trace = last_cmd line w1.trace
      ∧ ∀ a b, w1.trace = a ++ b → coherent line p0.delay_us a := by
  obtain ⟨w1, he, hi, ht⟩ := mux_inv_exec p0 line w r hinv
  refine ⟨w1, he, hi, ?_⟩
  rw [ht]
  by_cases h1 : r.info = IIO_CHAN_INFO_RAW
  · by_cases hch : last_cmd line w.trace = r.chan.channel
    · have hev : read_events { p0 with last_channel := last_cmd line w.trace } r
          = [Event.iio_read_channel_raw p0.parent] := by
        simp [read_events, h1, raw_events, hch]
      rw [hev]
      refine ⟨?_, fun a b h => coherent_split_quiet line p0.delay_us w.trace _
        (Or.inr ⟨_, rfl⟩) (by simp [last_sel]) (by intro x; rfl) hc hall a b h⟩
      rw [cached_append, last_cmd_append_quiet line w.trace _ (by simp [last_sel])]
      exact hc
    · have hev : read_events { p0 with last_channel := last_cmd line w.trace } r
          = [Event.gpiod_set_value_cansleep p0.gpiod r.chan.channel,
             Event.fsleep p0.delay_us, Event.store_last_channel r.chan.channel,
             Event.iio_read_channel_raw p0.parent] := by
        simp [read_events, h1, raw_events, hch]
      rw [hev]
      constructor
      · rw [cached_append,
          last_cmd_of_last_sel line _ r.chan.channel
            [Event.fsleep p0.delay_us, Event.store_last_channel r.chan.channel,
             Event.iio_read_channel_raw p0.parent]
            (last_sel_append_some w.trace _ _ (by simp [last_sel]))]
        simp [cached]
      · intro a b h
        rcases List.append_eq_append_iff.mp h with ⟨a1, ha, hb⟩ | ⟨c1, hc1, _⟩
        · by_cases hnil : a1 = []
          · rw [ha, hnil]
            exact hall (w.trace ++ []) [] (by simp)
          · rw [ha]
            exact coherent_append_switch line p0.delay_us w.trace p0.gpiod r.chan.channel
              p0.parent a1 b hb hnil
        · exact hall a c1 hc1
  · by_cases h2 : r.info = IIO_CHAN_INFO_SCALE
    · have hev : read_events { p0 with last_channel := last_cmd line w.trace } r
          = [Event.iio_read_channel_scale p0.parent] := by
        have hne : IIO_CHAN_INFO_SCALE ≠ IIO_CHAN_INFO_RAW := by decide
        simp [read_events, h2, hne, scale_events]
      rw [hev]
      refine ⟨?_, fun a b h => coherent_split_quiet line p0.delay_us w.trace _
        (Or.inr ⟨_, rfl⟩) (by simp [last_sel]) (by intro x; rfl) hc hall a b h⟩
      rw [cached_append, last_cmd_append_quiet line w.trace _ (by simp [last_sel])]
      exact hc
    · have hev : read_events { p0 with last_channel := last_cmd line w.trace } r = [] := by
        simp [read_events, h1, h2]
      rw [hev]
      refine ⟨?_, fun a b h => coherent_split_quiet line p0.delay_us w.trace _
        (Or.inl rfl) rfl (by intro x; rfl) hc hall a b h⟩
      rw [List.append_nil]
      exact hc

theorem coherent_run (p0 : ani_mux) (line : Int) (rs : List Read) (w : World)
    (hinv : mux_inv p0 line w)
    (hc : cached line w.trace = last_cmd line w.trace)
    (hall : ∀ a b, w.trace = a ++ b → coherent line p0.delay_us a) :
    ∃ w1, run_reads rs w = some w1 ∧ mux_inv p0 line w1
      ∧ cached line w1.trace = last_cmd line w1.trace
      ∧ ∀ a b, w1.trace = a ++ b → coherent line p0.delay_us a := by
  induction rs generalizing w with
  | nil => exact ⟨w, rfl, hinv, hc, hall⟩
  | cons r rs ih =>
    obtain ⟨w1, he, hi, hc1, hall1⟩ := coherent_exec p0 line w r hinv hc hall
    obtain ⟨w2, hr, hi2, hc2, hall2⟩ := ih w1 hi hc1 hall1
    exact ⟨w2, by simp [run_reads, he, hr], hi2, hc2, hall2⟩

theorem coherent_init (init : Int) (d : Nat) (a b : List Event) (h : ([] : List Event) = a ++ b) :
    coherent init d a := by
  have ha : a = [] := by
    cases a with
    | nil => rfl
    | cons x xs => simp at h
  subst ha
  rfl

theorem mux_inv_sample (p0 : ani_mux) (line : Int) (w : World) (r : Read)
    (h : mux_inv p0 line w) (hcw : cached line w.trace = last_cmd line w.trace)
    (h1 : r.info = IIO_CHAN_INFO_RAW) :
    ∃ ev w1, exec r w = some w1
      ∧ w1.trace = w.trace ++ ev ++ [Event.iio_read_channel_raw p0.parent]
      ∧ count_raw ev = 0
      ∧ settled line r.chan.channel p0.delay_us (w.trace ++ ev)
      ∧ cached line (w.trace ++ ev) = r.chan.channel := by
  obtain ⟨d, tr⟩ := w
  have hd : d = some { p0 with last_channel := last_cmd line tr } := h.1
  subst hd
  by_cases hc : last_cmd line tr = r.chan.channel
  · refine ⟨[], _, exec_RAW r _ tr h1, by simp [raw_events, hc], rfl, ?_, ?_⟩
    · simp only [List.append_nil]
      unfold settled
      cases hs : last_sel tr with
      | none =>
        show r.chan.channel = line
        rw [← hc, last_cmd_of_no_sel line tr hs]
      | some x =>
        obtain ⟨v, rest⟩ := x
        show v = r.chan.channel ∧ rest.head? = some (Event.fsleep p0.delay_us)
        exact ⟨by rw [← hc, last_cmd_of_last_sel line tr v rest hs], h.2 v rest hs⟩
    · simp only [List.append_nil]
      rw [← hc]
      exact hcw
  · refine ⟨[Event.gpiod_set_value_cansleep p0.gpiod r.chan.channel,
             Event.fsleep p0.delay_us, Event.store_last_channel r.chan.channel], _,
            exec_RAW r _ tr h1, by simp [raw_events, hc], rfl, ?_, ?_⟩
    · have hl : last_sel (tr ++ [Event.gpiod_set_value_cansleep p0.gpiod r.chan.channel,
          Event.fsleep p0.delay_us, Event.store_last_channel r.chan.channel])
          = some (r.chan.channel,
              [Event.fsleep p0.delay_us, Event.store_last_channel r.chan.channel]) := by
        apply last_sel_append_some
        simp [last_sel]
      unfold settled
      rw [hl]
      exact ⟨rfl, rfl⟩
    · simp [cached_append, cached]

/-! ## The claims -/

/-- C1: for every mux state (any `delay_us`, 0 included) and every channel, a
raw read runs to completion and returns the parent's answer.  When the cached
channel differs from the requested one it issues exactly the selector command
for the requested channel, then the sleep of `delay_us`, then the store of the
requested channel to `last_channel`, then one raw sample request, in that
order; when the cached channel equals the requested one it issues only the
one sample request and leaves the state as it was.  A selector command and a
sleep occur if and only if the requested channel differs from the cached one. -/
theorem C1_raw_read_switches_iff_channel_differs (env : Env) (p : ani_mux) (tr : List Event)
    (chan : iio_chan_spec) (val val2 : Int) :
    (iio_read_raw env chan val val2 IIO_CHAN_INFO_RAW).run ⟨some p, tr⟩
      = some ((env.raw_ret, env.raw_val.getD val, val2),
          if p.last_channel ≠ chan.channel then
            ⟨some { p with last_channel := chan.channel },
             tr ++ [Event.gpiod_set_value_cansleep p.gpiod chan.channel,
                    Event.fsleep p.delay_us,
                    Event.store_last_channel chan.channel,
                    Event.iio_read_channel_raw p.parent]⟩
          else ⟨some p, tr ++ [Event.iio_read_channel_raw p.parent]⟩)
    ∧ ∃ w ev,
        ((iio_read_raw env chan val val2 IIO_CHAN_INFO_RAW).run ⟨some p, tr⟩).map Prod.snd
          = some w
        ∧ w.trace = tr ++ ev
        ∧ count_raw ev = 1
        ∧ (count_sel ev = 1 ↔ p.last_channel ≠ chan.channel)
        ∧ (count_sel ev = 0 ↔ p.last_channel = chan.channel)
        ∧ (count_sleep ev = 1 ↔ p.last_channel ≠ chan.channel)
        ∧ (count_sleep ev = 0 ↔ p.last_channel = chan.channel) := by
  rw [iio_read_raw_RAW]
  by_cases h : p.last_channel = chan.channel
  · refine ⟨?_, _, raw_events p chan, rfl, rfl, ?_⟩
    · simp [raw_events, h]
      rw [← h]
    · simp [raw_events, h, count_raw, count_sel, count_sleep]
  · refine ⟨?_, _, raw_events p chan, rfl, rfl, ?_⟩
    · simp [raw_events, h]
    · simp [raw_events, h, count_raw, count_sel, count_sleep]

/-- C2, the code at the failing input: `ani_mux_probe` succeeds on a fresh
platform device with settle time 50 and hands the device back with its driver
data still NULL; the struct it initialised (`last_channel = 0`,
`delay_us = 50`) is not reachable from the device.  The first raw read, of
channel 1 as of channel 0, gets `priv = NULL` on line 40 and faults at the
dereference on line 45: it issues no selector command and no sleep and
requests no sample. -/
theorem C2_first_read_after_probe_faults :
    ani_mux_probe probe_env_50 fresh_device = Except.ok inst_50
    ∧ inst_50.priv = { gpiod := 3, parent := 4, last_channel := 0, delay_us := 50 }
    ∧ dev_get_drvdata inst_50.dev = none
    ∧ probe_world inst_50 = ⟨none, []⟩
    ∧ (iio_read_raw env_ok chan1 0 0 IIO_CHAN_INFO_RAW).run (probe_world inst_50) = none
    ∧ (iio_read_raw env_ok chan0 0 0 IIO_CHAN_INFO_RAW).run (probe_world inst_50) = none := by
  refine ⟨rfl, rfl, rfl, rfl, ?_, ?_⟩ <;> decide

/-- C3: for every mux state and channel, a scale read issues no selector
command and no sleep, leaves the whole state (so `last_channel` and
`delay_us`) unchanged and performs exactly one scale query on the parent.
Any number of scale reads in a row leave the state unchanged and add only
scale queries to the trace, so a raw read that follows them emits the same
events, and ends in the same state, as the same raw read without them. -/
theorem C3_scale_read_bypasses_routing (env : Env) (p : ani_mux) (tr : List Event)
    (chan : iio_chan_spec) (val val2 : Int) (ss : List Read)
    (hs : ∀ s ∈ ss, s.info = IIO_CHAN_INFO_SCALE) (r : Read)
    (hr : r.info = IIO_CHAN_INFO_RAW) :
    (iio_read_raw env chan val val2 IIO_CHAN_INFO_SCALE).run ⟨some p, tr⟩
      = some ((env.scale_ret, env.scale_val.getD val, env.scale_val2.getD val2),
          ⟨some p, tr ++ [Event.iio_read_channel_scale p.parent]⟩)
    ∧ ∃ w es, run_reads ss ⟨some p, tr⟩ = some w
        ∧ w.drvdata = some p
        ∧ w.trace = tr ++ es
        ∧ count_sel es = 0 ∧ count_sleep es = 0 ∧ count_raw es = 0
        ∧ count_scale es = ss.length
        ∧ ∃ q ev, exec r ⟨some p, tr⟩ = some ⟨some q, tr ++ ev⟩
            ∧ exec r w = some ⟨some q, w.trace ++ ev⟩
            ∧ (count_sel ev = 1 ↔ p.last_channel ≠ r.chan.channel) := by
  refine ⟨iio_read_raw_SCALE env p tr chan val val2, ?_⟩
  obtain ⟨c1, c2, c3, c4⟩ := count_replicate_scale p.parent ss.length
  refine ⟨_, _, run_reads_scale ss hs p tr, rfl, rfl, c1, c2, c3, c4, ?_⟩
  refine ⟨_, raw_events p r.chan, exec_RAW r p tr hr, exec_RAW r p _ hr, ?_⟩
  rw [count_sel_raw_events]
  by_cases h : p.last_channel = r.chan.channel <;> simp [h]

/-- Witness of C3: two scale reads (of channels 0 and 1) with channel 0
cached, followed by a raw read of channel 1. -/
theorem C3_scale_read_bypasses_routing_witness :
    ∃ w es, run_reads [⟨chan0, IIO_CHAN_INFO_SCALE, 0, 0, env_ok⟩,
                       ⟨chan1, IIO_CHAN_INFO_SCALE, 0, 0, env_parent_fails⟩] ⟨some priv0, []⟩
          = some w
        ∧ w.drvdata = some priv0
        ∧ w.trace = [] ++ es
        ∧ count_sel es = 0 ∧ count_sleep es = 0 ∧ count_raw es = 0
        ∧ count_scale es = 2
        ∧ ∃ q ev, exec ⟨chan1, IIO_CHAN_INFO_RAW, 0, 0, env_ok⟩ ⟨some priv0, []⟩
              = some ⟨some q, [] ++ ev⟩
            ∧ exec ⟨chan1, IIO_CHAN_INFO_RAW, 0, 0, env_ok⟩ w = some ⟨some q, w.trace ++ ev⟩
            ∧ (count_sel ev = 1 ↔ priv0.last_channel ≠ chan1.channel) :=
  (C3_scale_read_bypasses_routing env_ok priv0 [] chan0 0 0
    [⟨chan0, IIO_CHAN_INFO_SCALE, 0, 0, env_ok⟩,
     ⟨chan1, IIO_CHAN_INFO_SCALE, 0, 0, env_parent_fails⟩]
    (by decide) ⟨chan1, IIO_CHAN_INFO_RAW, 0, 0, env_ok⟩ rfl).2

/-- C4: for every initial mux state, every channel `c` and every sequence of
one or more raw reads of `c` (the parent answering each as it likes, success
or error), the sequence runs to completion, the first read issues at most one
selector command and the remaining reads issue none, so the whole sequence
issues at most one. -/
theorem C4_repeated_raw_reads_switch_at_most_once (p : ani_mux) (tr : List Event) (c : Int)
    (r : Read) (rs : List Read)
    (h : ∀ x ∈ r :: rs, x.chan.channel = c ∧ x.info = IIO_CHAN_INFO_RAW) :
    ∃ w1 w e1 e2,
      exec r ⟨some p, tr⟩ = some w1
      ∧ run_reads rs w1 = some w
      ∧ run_reads (r :: rs) ⟨some p, tr⟩ = some w
      ∧ w1.trace = tr ++ e1
      ∧ w.trace = tr ++ e1 ++ e2
      ∧ count_sel e1 ≤ 1
      ∧ (count_sel e1 = 1 ↔ p.last_channel ≠ c)
      ∧ count_sel e2 = 0
      ∧ count_sel (e1 ++ e2) ≤ 1 := by
  have hr := h r (List.mem_cons_self r rs)
  have hrs : ∀ x ∈ rs, x.chan.channel = c ∧ x.info = IIO_CHAN_INFO_RAW :=
    fun x hx => h x (List.mem_cons_of_mem r hx)
  have h1 := exec_RAW r p tr hr.2
  have h2 := run_reads_same_raw c rs hrs { p with last_channel := r.chan.channel } hr.1
    (tr ++ raw_events p r.chan)
  have hc1 : count_sel (raw_events p r.chan) ≤ 1
      ∧ (count_sel (raw_events p r.chan) = 1 ↔ p.last_channel ≠ c) := by
    rw [count_sel_raw_events, hr.1]
    by_cases hpc : p.last_channel = c <;> simp [hpc]
  refine ⟨_, _, raw_events p r.chan, _, h1, h2, ?_, rfl, rfl, hc1.1, hc1.2,
    count_sel_replicate_raw _ rs.length, ?_⟩
  · simp [run_reads, h1, h2]
  · rw [count_sel_append, count_sel_replicate_raw]
    exact hc1.1

/-- Witness of C4: three raw reads of channel 1 with channel 0 cached, the
parent failing on the second. -/
theorem C4_repeated_raw_reads_switch_at_most_once_witness :
    ∃ w1 w e1 e2,
      exec ⟨chan1, IIO_CHAN_INFO_RAW, 0, 0, env_ok⟩ ⟨some priv0, []⟩ = some w1
      ∧ run_reads [⟨chan1, IIO_CHAN_INFO_RAW, 0, 0, env_parent_fails⟩,
                   ⟨chan1, IIO_CHAN_INFO_RAW, 0, 0, env_ok⟩] w1 = some w
      ∧ run_reads [⟨chan1, IIO_CHAN_INFO_RAW, 0, 0, env_ok⟩,
                   ⟨chan1, IIO_CHAN_INFO_RAW, 0, 0, env_parent_fails⟩,
                   ⟨chan1, IIO_CHAN_INFO_RAW, 0, 0, env_ok⟩] ⟨some priv0, []⟩ = some w
      ∧ w1.trace = [] ++ e1
      ∧ w.trace = [] ++ e1 ++ e2
      ∧ count_sel e1 ≤ 1
      ∧ (count_sel e1 = 1 ↔ priv0.last_channel ≠ 1)
      ∧ count_sel e2 = 0
      ∧ count_sel (e1 ++ e2) ≤ 1 :=
  C4_repeated_raw_reads_switch_at_most_once priv0 [] 1
    ⟨chan1, IIO_CHAN_INFO_RAW, 0, 0, env_ok⟩
    [⟨chan1, IIO_CHAN_INFO_RAW, 0, 0, env_parent_fails⟩,
     ⟨chan1, IIO_CHAN_INFO_RAW, 0, 0, env_ok⟩]
    (by decide)

/-- C5: for every mux state and channel, a raw read makes exactly one raw
sample call on the parent and returns the status and the output value that
call produced; a scale read makes exactly one scale query and returns the
status and both output components that query produced.  `val2` is untouched
by a raw read. -/
theorem C5_parent_answer_returned_verbatim (env : Env) (p : ani_mux) (tr : List Event)
    (chan : iio_chan_spec) (val val2 : Int) :
    (∃ w ev,
      (iio_read_raw env chan val val2 IIO_CHAN_INFO_RAW).run ⟨some p, tr⟩
        = some ((env.raw_ret, env.raw_val.getD val, val2), w)
      ∧ ((iio_read_channel_raw env p.parent val).run ⟨some p, tr⟩).map Prod.fst
        = some (env.raw_ret, env.raw_val.getD val)
      ∧ w.trace = tr ++ ev ∧ count_raw ev = 1 ∧ count_scale ev = 0)
    ∧ (∃ w ev,
      (iio_read_raw env chan val val2 IIO_CHAN_INFO_SCALE).run ⟨some p, tr⟩
        = some ((env.scale_ret, env.scale_val.getD val, env.scale_val2.getD val2), w)
      ∧ ((iio_read_channel_scale env p.parent val val2).run ⟨some p, tr⟩).map Prod.fst
        = some (env.scale_ret, env.scale_val.getD val, env.scale_val2.getD val2)
      ∧ w.trace = tr ++ ev ∧ count_scale ev = 1 ∧ count_raw ev = 0) := by
  constructor
  · refine ⟨_, raw_events p chan, iio_read_raw_RAW env p tr chan val val2, ?_, rfl, ?_, ?_⟩
    · simp [iio_read_channel_raw, emit, StateT.run, bind, StateT.bind, pure, StateT.pure,
        modify, modifyGet, MonadStateOf.modifyGet, StateT.modifyGet]
    · by_cases h : p.last_channel = chan.channel <;> simp [raw_events, h, count_raw]
    · by_cases h : p.last_channel = chan.channel <;> simp [raw_events, h, count_scale]
  · refine ⟨_, scale_events p, iio_read_raw_SCALE env p tr chan val val2, ?_, rfl, ?_, ?_⟩
    · simp [iio_read_channel_scale, emit, StateT.run, bind, StateT.bind, pure, StateT.pure,
        modify, modifyGet, MonadStateOf.modifyGet, StateT.modifyGet]
    · simp [scale_events, count_scale]
    · simp [scale_events, count_raw]

/-- C6 fails when the channel differs: with channel 0 cached, a raw read of
channel 1 whose parent sample fails with -110 returns -110, yet
`last_channel` is 1 after the call, not the 0 it was before. -/
theorem C6_failed_sample_after_switch_changes_cache :
    (iio_read_raw env_parent_fails chan1 0 0 IIO_CHAN_INFO_RAW).run ⟨some priv0, []⟩
      = some ((-110, 0, 0),
          ⟨some { gpiod := 3, parent := 4, last_channel := 1, delay_us := 50 },
           [Event.gpiod_set_value_cansleep 3 1, Event.fsleep 50,
            Event.store_last_channel 1, Event.iio_read_channel_raw 4]⟩)
    ∧ priv0.last_channel = 0
    ∧ (1 : Int) ≠ priv0.last_channel := by
  decide

/-- C6 amended: if a raw read of `c` returns an error because the parent
failed to produce a sample, `last_channel` after the call equals `c`, the
channel the selector was commanded to; it equals `last_channel` before the
call exactly when `c` was the cached channel at entry. -/
theorem C6_failed_sample_leaves_cache_at_requested_channel (env : Env) (p : ani_mux)
    (tr : List Event) (chan : iio_chan_spec) (val val2 : Int) (herr : env.raw_ret < 0) :
    ∃ r v v2 q tr1,
      (iio_read_raw env chan val val2 IIO_CHAN_INFO_RAW).run ⟨some p, tr⟩
        = some ((r, v, v2), ⟨some q, tr1⟩)
      ∧ r = env.raw_ret ∧ r < 0
      ∧ q.last_channel = chan.channel
      ∧ (q.last_channel = p.last_channel ↔ p.last_channel = chan.channel)
      ∧ q.delay_us = p.delay_us := by
  refine ⟨_, _, _, _, _, iio_read_raw_RAW env p tr chan val val2, rfl, herr, rfl, ?_, rfl⟩
  exact ⟨fun h => h.symm, fun h => h.symm⟩

/-- Witness of C6 amended: channel 0 cached, raw read of channel 1, parent fails. -/
theorem C6_failed_sample_leaves_cache_at_requested_channel_witness :
    env_parent_fails.raw_ret < 0
    ∧ ∃ r v v2 q tr1,
      (iio_read_raw env_parent_fails chan1 0 0 IIO_CHAN_INFO_RAW).run ⟨some priv0, []⟩
        = some ((r, v, v2), ⟨some q, tr1⟩)
      ∧ r = env_parent_fails.raw_ret ∧ r < 0
      ∧ q.last_channel = chan1.channel
      ∧ (q.last_channel = priv0.last_channel ↔ priv0.last_channel = chan1.channel)
      ∧ q.delay_us = priv0.delay_us :=
  ⟨by decide,
   C6_failed_sample_leaves_cache_at_requested_channel env_parent_fails priv0 [] chan1 0 0
     (by decide)⟩

/-- C7 fails: with channel 0 cached and a selector command that fails with -5,
a raw read of channel 1 returns the parent's status 1 and sample 7 (not -5),
sleeps 50 us, requests the sample and leaves `last_channel = 1`; the raw read
of channel 0 that follows issues a selector command and a sleep. -/
theorem C7_selector_failure_is_not_observed :
    env_selector_fails.gpiod_ret = -5
    ∧ (iio_read_raw env_selector_fails chan1 0 0 IIO_CHAN_INFO_RAW).run ⟨some priv0, []⟩
      = some ((1, 7, 0),
          ⟨some { gpiod := 3, parent := 4, last_channel := 1, delay_us := 50 },
           [Event.gpiod_set_value_cansleep 3 1, Event.fsleep 50,
            Event.store_last_channel 1, Event.iio_read_channel_raw 4]⟩)
    ∧ (iio_read_raw env_ok chan0 0 0 IIO_CHAN_INFO_RAW).run
        ⟨some { gpiod := 3, parent := 4, last_channel := 1, delay_us := 50 }, []⟩
      = some ((1, 7, 0),
          ⟨some priv0,
           [Event.gpiod_set_value_cansleep 3 0, Event.fsleep 50,
            Event.store_last_channel 0, Event.iio_read_channel_raw 4]⟩) := by
  decide

/-- C7 amended: the read path does not look at the status of the selector
command.  A raw read of channel B issued while channel A (different from B)
is cached, whose selector command fails, still sleeps the settle time, sets
`last_channel` to B, requests one sample and returns the parent's status and
value; a raw read of A that follows issues one selector command for A and one
sleep. -/
theorem C7_selector_status_is_discarded (env env2 : Env) (p : ani_mux) (tr : List Event)
    (chanB chanA : iio_chan_spec) (val val2 val3 val4 : Int)
    (hAB : p.last_channel ≠ chanB.channel) (hA : chanA.channel = p.last_channel)
    (hfail : env.gpiod_ret < 0) :
    ∃ w,
      (iio_read_raw env chanB val val2 IIO_CHAN_INFO_RAW).run ⟨some p, tr⟩
        = some ((env.raw_ret, env.raw_val.getD val, val2), w)
      ∧ w = ⟨some { p with last_channel := chanB.channel },
             tr ++ [Event.gpiod_set_value_cansleep p.gpiod chanB.channel,
                    Event.fsleep p.delay_us,
                    Event.store_last_channel chanB.channel,
                    Event.iio_read_channel_raw p.parent]⟩
      ∧ (iio_read_raw env2 chanA val3 val4 IIO_CHAN_INFO_RAW).run w
        = some ((env2.raw_ret, env2.raw_val.getD val3, val4),
            ⟨some p,
             w.trace ++ [Event.gpiod_set_value_cansleep p.gpiod chanA.channel,
                         Event.fsleep p.delay_us,
                         Event.store_last_channel chanA.channel,
                         Event.iio_read_channel_raw p.parent]⟩) := by
  have _ := hfail
  refine ⟨_, iio_read_raw_RAW env p tr chanB val val2, ?_, ?_⟩
  · simp [raw_events, hAB]
  · rw [iio_read_raw_RAW]
    have hBA : ¬ chanB.channel = p.last_channel := fun e => hAB e.symm
    simp [raw_events, hBA, hA]

/-- Witness of C7 amended: channel 0 cached, selector fails with -5 on a read
of channel 1, then channel 0 is read. -/
theorem C7_selector_status_is_discarded_witness :
    priv0.last_channel ≠ chan1.channel ∧ chan0.channel = priv0.last_channel
    ∧ env_selector_fails.gpiod_ret < 0
    ∧ ∃ w,
      (iio_read_raw env_selector_fails chan1 0 0 IIO_CHAN_INFO_RAW).run ⟨some priv0, []⟩
        = some ((env_selector_fails.raw_ret, env_selector_fails.raw_val.getD 0, 0), w)
      ∧ w = ⟨some { priv0 with last_channel := chan1.channel },
             [] ++ [Event.gpiod_set_value_cansleep priv0.gpiod chan1.channel,
                    Event.fsleep priv0.delay_us,
                    Event.store_last_channel chan1.channel,
                    Event.iio_read_channel_raw priv0.parent]⟩
      ∧ (iio_read_raw env_ok chan0 0 0 IIO_CHAN_INFO_RAW).run w
        = some ((env_ok.raw_ret, env_ok.raw_val.getD 0, 0),
            ⟨some priv0,
             w.trace ++ [Event.gpiod_set_value_cansleep priv0.gpiod chan0.channel,
                         Event.fsleep priv0.delay_us,
                         Event.store_last_channel chan0.channel,
                         Event.iio_read_channel_raw priv0.parent]⟩) :=
  ⟨by decide, by decide, by decide,
   C7_selector_status_is_discarded env_selector_fails env_ok priv0 [] chan1 chan0 0 0 0 0
     (by decide) (by decide) (by decide)⟩

/-- C8 fails: with channel 0 cached, a raw read of index 2 (outside the
two-entry table) returns the parent's status 1 and sample 7, not `-EINVAL`,
after a selector command with value 2, a sleep and a sample request, and
leaves `last_channel = 2`; the same happens for index -1. -/
theorem C8_out_of_range_channel_is_switched_and_sampled :
    ani_mux_iio_channels.length = 2
    ∧ (iio_read_raw env_ok chan2 0 0 IIO_CHAN_INFO_RAW).run ⟨some priv0, []⟩
      = some ((1, 7, 0),
          ⟨some { gpiod := 3, parent := 4, last_channel := 2, delay_us := 50 },
           [Event.gpiod_set_value_cansleep 3 2, Event.fsleep 50,
            Event.store_last_channel 2, Event.iio_read_channel_raw 4]⟩)
    ∧ (iio_read_raw env_ok { chan0 with channel := -1 } 0 0 IIO_CHAN_INFO_RAW).run
        ⟨some priv0, []⟩
      = some ((1, 7, 0),
          ⟨some { gpiod := 3, parent := 4, last_channel := -1, delay_us := 50 },
           [Event.gpiod_set_value_cansleep 3 (-1), Event.fsleep 50,
            Event.store_last_channel (-1), Event.iio_read_channel_raw 4]⟩)
    ∧ (1 : Int) ≠ -EINVAL := by
  decide

/-- C8 amended: the read path has no check of the channel index.  For every
index outside the declared table (`c < 0` or `c >= 2`) and every mux state, a
raw read of `c` returns the parent's status and value, requests one sample,
and leaves `last_channel = c`, after one selector command with value `c` and
one sleep when `c` was not the cached channel.  The table
`ani_mux_iio_channels` declares exactly the indices 0 and 1, and the only
`-EINVAL` the function produces itself is for a request that is neither raw
nor scale, which has no effect at all. -/
theorem C8_no_channel_range_check (env : Env) (p : ani_mux) (tr : List Event)
    (chan : iio_chan_spec) (val val2 : Int) (info : Int)
    (hout : chan.channel < 0 ∨ 2 ≤ chan.channel)
    (hinfo : info ≠ IIO_CHAN_INFO_RAW ∧ info ≠ IIO_CHAN_INFO_SCALE) :
    (iio_read_raw env chan val val2 IIO_CHAN_INFO_RAW).run ⟨some p, tr⟩
      = some ((env.raw_ret, env.raw_val.getD val, val2),
          ⟨some { p with last_channel := chan.channel },
           tr ++ (if p.last_channel ≠ chan.channel then
                    [Event.gpiod_set_value_cansleep p.gpiod chan.channel,
                     Event.fsleep p.delay_us,
                     Event.store_last_channel chan.channel,
                     Event.iio_read_channel_raw p.parent]
                  else [Event.iio_read_channel_raw p.parent])⟩)
    ∧ ani_mux_iio_channels.map (fun ch => ch.channel) = [0, 1]
    ∧ chan ∉ ani_mux_iio_channels
    ∧ (iio_read_raw env chan val val2 info).run ⟨some p, tr⟩
      = some ((-EINVAL, val, val2), ⟨some p, tr⟩) := by
  refine ⟨?_, by decide, ?_, iio_read_raw_other env _ chan val val2 info hinfo.1 hinfo.2⟩
  · rw [iio_read_raw_RAW]
    by_cases h : p.last_channel = chan.channel <;> simp [raw_events, h]
  · intro hmem
    simp [ani_mux_iio_channels] at hmem
    rcases hmem with h | h <;> rw [h] at hout <;> simp at hout

/-- Witness of C8 amended: index 2 with channel 0 cached, and request kind 1
(`IIO_CHAN_INFO_PROCESSED`). -/
theorem C8_no_channel_range_check_witness :
    (chan2.channel < 0 ∨ 2 ≤ chan2.channel)
    ∧ ((1 : Int) ≠ IIO_CHAN_INFO_RAW ∧ (1 : Int) ≠ IIO_CHAN_INFO_SCALE)
    ∧ (iio_read_raw env_ok chan2 0 0 IIO_CHAN_INFO_RAW).run ⟨some priv0, []⟩
      = some ((env_ok.raw_ret, env_ok.raw_val.getD 0, 0),
          ⟨some { priv0 with last_channel := chan2.channel },
           [] ++ (if priv0.last_channel ≠ chan2.channel then
                    [Event.gpiod_set_value_cansleep priv0.gpiod chan2.channel,
                     Event.fsleep priv0.delay_us,
                     Event.store_last_channel chan2.channel,
                     Event.iio_read_channel_raw priv0.parent]
                  else [Event.iio_read_channel_raw priv0.parent])⟩) :=
  ⟨by decide, by decide,
   (C8_no_channel_range_check env_ok priv0 [] chan2 0 0 1 (by decide) (by decide)).1⟩

/-- C9 fails as stated.  The state `ani_mux_probe` leaves gives the read path
no mux state: the driver data is NULL and a raw read of channel 1 run from it
faults.  And with the struct probe initialised (line low, `last_channel = 0`)
as driver data, a raw read of channel 1 emits selector command, sleep, store
and sample, so at the instants after the selector command and after the sleep
`last_channel` is still 0 while the most recent selector command has value
1. -/
theorem C9_cache_lags_selector_during_switch :
    ani_mux_probe probe_env_50 fresh_device = Except.ok inst_50
    ∧ run_reads [⟨chan1, IIO_CHAN_INFO_RAW, 0, 0, env_ok⟩] (probe_world inst_50) = none
    ∧ run_reads [⟨chan1, IIO_CHAN_INFO_RAW, 0, 0, env_ok⟩] ⟨some inst_50.priv, []⟩
        = some ⟨some { gpiod := 3, parent := 4, last_channel := 1, delay_us := 50 },
            [Event.gpiod_set_value_cansleep 3 1, Event.fsleep 50,
             Event.store_last_channel 1, Event.iio_read_channel_raw 4]⟩
    ∧ cached 0 [Event.gpiod_set_value_cansleep 3 1] = 0
    ∧ last_cmd 0 [Event.gpiod_set_value_cansleep 3 1] = 1
    ∧ cached 0 [Event.gpiod_set_value_cansleep 3 1, Event.fsleep 50] = 0
    ∧ last_cmd 0 [Event.gpiod_set_value_cansleep 3 1, Event.fsleep 50] = 1 := by
  refine ⟨rfl, ?_, ?_, rfl, rfl, rfl, rfl⟩ <;> decide

/-- C9 amended: take a mux state with `last_channel = 0` as the driver data of
the read path, the selector line being low (the values `ani_mux_probe` gives
the struct it allocates), and any finite sequence of read requests on
channels 0 and 1, run one after another.  The sequence runs to completion.
(a) Between reads, that is after every prefix of the sequence, `last_channel`
equals the value of the most recent selector command in the trace (0 when
there is none) and the value of the most recent store, is 0 or 1, and
`delay_us` is unchanged.  (b) Every raw read of a channel `c` issues exactly
one raw sample request, as its last event; in the trace before that request
either the most recent selector command has value `c` and is directly
followed by a sleep of `delay_us`, or there is no selector command at all and
`c` is 0; and `last_channel` is `c` at that instant.  (c) At every instant of
the run `last_channel` equals the value of the most recent selector command
(0 when there is none), except while that command is the last event or is
followed by its settle sleep only, the store of line 48 still to come. -/
theorem C9_samples_settled_cache_tracks_selector (p : ani_mux) (hp : p.last_channel = 0)
    (rs : List Read) (hrs : ∀ r ∈ rs, r.chan.channel = 0 ∨ r.chan.channel = 1) :
    (∀ pre post, rs = pre ++ post →
        ∃ w q, run_reads pre ⟨some p, []⟩ = some w
          ∧ w.drvdata = some q
          ∧ q.last_channel = last_cmd 0 w.trace
          ∧ q.last_channel = cached 0 w.trace
          ∧ (q.last_channel = 0 ∨ q.last_channel = 1)
          ∧ q.delay_us = p.delay_us)
    ∧ (∀ pre r post, rs = pre ++ r :: post → r.info = IIO_CHAN_INFO_RAW →
        ∃ w ev w1, run_reads pre ⟨some p, []⟩ = some w
          ∧ exec r w = some w1
          ∧ w1.trace = w.trace ++ ev ++ [Event.iio_read_channel_raw p.parent]
          ∧ count_raw ev = 0
          ∧ settled 0 r.chan.channel p.delay_us (w.trace ++ ev)
          ∧ cached 0 (w.trace ++ ev) = r.chan.channel)
    ∧ (∃ w, run_reads rs ⟨some p, []⟩ = some w
          ∧ ∀ a b, w.trace = a ++ b → coherent 0 p.delay_us a) := by
  have h0 : mux_inv p 0 ⟨some p, []⟩ := mux_inv_init p 0 hp
  have hc0 : cached 0 ([] : List Event) = last_cmd 0 ([] : List Event) := rfl
  have hall0 : ∀ a b, ([] : List Event) = a ++ b → coherent 0 p.delay_us a :=
    fun a b h => coherent_init 0 p.delay_us a b h
  have h01 : last_cmd 0 ([] : List Event) = 0 ∨ last_cmd 0 ([] : List Event) = 1 :=
    Or.inl rfl
  refine ⟨?_, ?_, ?_⟩
  · intro pre post hsplit
    have hpre : ∀ r ∈ pre, r.chan.channel = 0 ∨ r.chan.channel = 1 := by
      intro r hr
      exact hrs r (by rw [hsplit]; exact List.mem_append_left post hr)
    obtain ⟨w, hrun, hinv, hw01⟩ := mux_inv_run_01 p 0 pre hpre _ h0 h01
    obtain ⟨w2, hrun2, _, hc2, _⟩ := coherent_run p 0 pre _ h0 hc0 hall0
    have hw : w2 = w := Option.some.inj (hrun2.symm.trans hrun)
    rw [hw] at hc2
    exact ⟨w, _, hrun, hinv.1, rfl, hc2.symm, hw01, rfl⟩
  · intro pre r post _ hraw
    obtain ⟨w, hrun, hinv, hc, _⟩ := coherent_run p 0 pre _ h0 hc0 hall0
    obtain ⟨ev, w1, he, ht, hcr, hs, hca⟩ := mux_inv_sample p 0 w r hinv hc hraw
    exact ⟨w, ev, w1, hrun, he, ht, hcr, hs, hca⟩
  · obtain ⟨w, hrun, _, _, hall⟩ := coherent_run p 0 rs _ h0 hc0 hall0
    exact ⟨w, hrun, hall⟩

/-- Witness of C9 amended: the struct the probe with settle time 50
initialises, then raw 0, raw 1, scale 0, raw 1, raw 0; the sample statement is
taken at the fourth request, the second raw read of channel 1. -/
theorem C9_samples_settled_cache_tracks_selector_witness :
    inst_50.priv.last_channel = 0
    ∧ (∀ r ∈ [(⟨chan0, IIO_CHAN_INFO_RAW, 0, 0, env_ok⟩ : Read),
              ⟨chan1, IIO_CHAN_INFO_RAW, 0, 0, env_ok⟩,
              ⟨chan0, IIO_CHAN_INFO_SCALE, 0, 0, env_ok⟩,
              ⟨chan1, IIO_CHAN_INFO_RAW, 0, 0, env_parent_fails⟩,
              ⟨chan0, IIO_CHAN_INFO_RAW, 0, 0, env_ok⟩],
          r.chan.channel = 0 ∨ r.chan.channel = 1)
    ∧ ∃ w ev w1,
        run_reads [⟨chan0, IIO_CHAN_INFO_RAW, 0, 0, env_ok⟩,
                   ⟨chan1, IIO_CHAN_INFO_RAW, 0, 0, env_ok⟩,
                   ⟨chan0, IIO_CHAN_INFO_SCALE, 0, 0, env_ok⟩] ⟨some inst_50.priv, []⟩ = some w
        ∧ exec ⟨chan1, IIO_CHAN_INFO_RAW, 0, 0, env_parent_fails⟩ w = some w1
        ∧ w1.trace = w.trace ++ ev ++ [Event.iio_read_channel_raw inst_50.priv.parent]
        ∧ count_raw ev = 0
        ∧ settled 0 chan1.channel inst_50.priv.delay_us (w.trace ++ ev)
        ∧ cached 0 (w.trace ++ ev) = chan1.channel :=
  ⟨rfl, by decide,
   (C9_samples_settled_cache_tracks_selector inst_50.priv rfl
      [⟨chan0, IIO_CHAN_INFO_RAW, 0, 0, env_ok⟩,
       ⟨chan1, IIO_CHAN_INFO_RAW, 0, 0, env_ok⟩,
       ⟨chan0, IIO_CHAN_INFO_SCALE, 0, 0, env_ok⟩,
       ⟨chan1, IIO_CHAN_INFO_RAW, 0, 0, env_parent_fails⟩,
       ⟨chan0, IIO_CHAN_INFO_RAW, 0, 0, env_ok⟩]
      (by decide)).2.1
     [⟨chan0, IIO_CHAN_INFO_RAW, 0, 0, env_ok⟩,
      ⟨chan1, IIO_CHAN_INFO_RAW, 0, 0, env_ok⟩,
      ⟨chan0, IIO_CHAN_INFO_SCALE, 0, 0, env_ok⟩]
     ⟨chan1, IIO_CHAN_INFO_RAW, 0, 0, env_parent_fails⟩
     [⟨chan0, IIO_CHAN_INFO_RAW, 0, 0, env_ok⟩] rfl rfl⟩

end AniMux
